import Mathlib

/-!
Verification of the favorites-panel core of react-explorer.

Shallow embedding of:
  - src/components/LeftPanel.tsx : the tree synchronizer (buildNodes,
    checkForWSL, installReactions), the selection tracker (getNodeFromPath,
    setActiveNode) and the navigation router (openFavorite, onNodeClick);
  - src/components/AppAlert.tsx : the serialized confirmation queue
    (Alerter.show / Alerter.onClose).

External collaborators (i18next translation, the icon table, the view host /
window state) are modelled at their interfaces.  Mutation of React state is
rendered as explicit state passing; asynchronous calls are rendered as
explicit outcome parameters together with a record of the calls issued.
-/

namespace ReactExplorer

/-! ## Generic list helpers -/

/-- Mapping an idempotent function twice is the same as mapping it once. -/
theorem list_map_idem {α : Type} {f : α → α} (hf : ∀ a, f (f a) = f a)
    (l : List α) : (l.map f).map f = l.map f := by
  induction l with
  | nil => rfl
  | cons a l ih => simp [hf, ih]

/-- Setting an index to the value it already holds leaves the list unchanged. -/
theorem list_set_self {α : Type} (l : List α) (i : Nat) (a : α)
    (h : l[i]? = some a) : l.set i a = l := by
  induction l generalizing i with
  | nil => simp at h
  | cons b l ih =>
    cases i with
    | zero => simp at h; simp [List.set, h]
    | succ j => simp at h; simp [List.set, ih j h]

/-- A member of `l.set i a` is `a` or a member of `l`. -/
theorem list_mem_set {α : Type} {l : List α} {i : Nat} {a b : α}
    (h : b ∈ l.set i a) : b = a ∨ b ∈ l := by
  induction l generalizing i with
  | nil => simp [List.set] at h
  | cons c l ih =>
    cases i with
    | zero =>
      simp [List.set] at h
      rcases h with h | h
      · exact Or.inl h
      · exact Or.inr (List.mem_cons_of_mem _ h)
    | succ j =>
      simp [List.set] at h
      rcases h with h | h
      · exact Or.inr (by simp [h])
      · rcases ih h with h | h
        · exact Or.inl h
        · exact Or.inr (List.mem_cons_of_mem _ h)

/-! ## Data model

`ITreeNode<string>` as used by LeftPanel.tsx.  Child nodes carry
`id`/`key` (the rendering identity), the tooltip title (the span's `title`
attribute, always the raw path), the rendered label text, an optional icon,
`nodeData` (the associated filesystem path) and the selection flag.  Group
nodes carry an ordinal id, a localized label, the caret/expansion flags and
their child nodes. -/

structure TreeNodeM where
  id : String
  key : String
  title : String
  labelText : String
  icon : Option String
  nodeData : String
  isSelected : Bool := false
  deriving Repr, DecidableEq

structure TreeGroupM where
  gid : Nat
  labelText : String
  hasCaret : Bool := true
  isExpanded : Bool := true
  childNodes : List TreeNodeM
  deriving Repr, DecidableEq

/-- `Favorite` from state/favoritesState.ts as consumed by LeftPanel.tsx:
a label (raw string or localization key), a path and an icon identifier
(optional: malformed source data may omit it). -/
structure Favorite where
  label : String
  path : String
  icon : Option String
  deriving Repr, DecidableEq

/-- The three ordered collections of the Favorites Source. -/
structure FavoritesState where
  shortcuts : List Favorite
  places : List Favorite
  distributions : List Favorite
  deriving Repr, DecidableEq

/-- The component's mutable state: the WSL flag (`showDistributions`) and the
tree model (`this.state.nodes`). -/
structure PanelState where
  showDistributions : Bool
  nodes : List TreeGroupM
  deriving Repr, DecidableEq

/-- Environment of external lookups: `t` is the i18next translation function
(total: i18next returns the key itself when a translation is missing),
`icons` is the `Icons` table from constants/icons.ts (a partial lookup keyed
by shortcut label), `username` is `USERNAME` from utils/platform.ts. -/
structure Env where
  t : String → String
  icons : String → Option String
  username : String

/-! ## Tree synchronizer (LeftPanel.tsx) -/

/-- Constructor state (LeftPanel.tsx lines 47-65): two fixed groups,
expanded, with empty child lists, and `showDistributions = false`
(line 40: the WSL probe is asynchronous, so the flag starts false). -/
def initialState (env : Env) : PanelState :=
  { showDistributions := false
    nodes :=
      [ { gid := 0, labelText := env.t "FAVORITES_PANEL.SHORTCUTS", childNodes := [] }
      , { gid := 1, labelText := env.t "FAVORITES_PANEL.PLACES", childNodes := [] } ] }

/-- Entry-to-node mapping for the shortcuts group (buildNodes, lines 233-241):
identity is the path with tag `s_` prepended; the label for the `HOME_DIR`
sentinel is the platform username, otherwise a localized lookup under the
`FAVORITES_PANEL` namespace; the icon is a table lookup keyed on the entry's
label (a miss yields no icon, it does not throw). -/
def shortcutNode (env : Env) (shortcut : Favorite) : TreeNodeM :=
  { id := "s_" ++ shortcut.path
    key := "s_" ++ shortcut.path
    title := shortcut.path
    labelText :=
      if shortcut.label = "HOME_DIR" then env.username
      else env.t ("FAVORITES_PANEL." ++ shortcut.label)
    icon := env.icons shortcut.label
    nodeData := shortcut.path }

/-- Entry-to-node mapping for the places group (buildNodes, lines 243-249):
identity is the path with tag `p_` prepended; label and icon are taken
directly from the entry. -/
def placeNode (place : Favorite) : TreeNodeM :=
  { id := "p_" ++ place.path
    key := "p_" ++ place.path
    title := place.path
    labelText := place.label
    icon := place.icon
    nodeData := place.path }

/-- Entry-to-node mapping for the distributions group (buildNodes, lines
252-258).  Note that the source prepends `p_` here as well — the same tag as
the places group, not a distinct one. -/
def distribNode (distrib : Favorite) : TreeNodeM :=
  { id := "p_" ++ distrib.path
    key := "p_" ++ distrib.path
    title := distrib.path
    labelText := distrib.label
    icon := distrib.icon
    nodeData := distrib.path }

/-- Replace the group at index `i` by `f` of it; out-of-range indices leave
the list unchanged (mirroring the source's `if (distributions)` guard on the
possibly-absent third group). -/
def updateGroup (nodes : List TreeGroupM) (i : Nat) (f : TreeGroupM → TreeGroupM) :
    List TreeGroupM :=
  match nodes[i]? with
  | none => nodes
  | some g => nodes.set i (f g)

/-- `buildNodes` (LeftPanel.tsx lines 226-269): wholesale replacement of the
child lists of groups 0 (shortcuts) and 1 (places); of group 2
(distributions) only when `showDistributions` is set (`favorites.distributions`
is an always-present array, hence truthy, so the source's
`this.showDistributions && favorites.distributions` reduces to the flag);
then refresh of all three group labels (the third guarded by the group's
existence). -/
def buildNodes (env : Env) (favorites : FavoritesState) (s : PanelState) : PanelState :=
  let n0 := updateGroup s.nodes 0 (fun g =>
    { g with childNodes := favorites.shortcuts.map (shortcutNode env) })
  let n1 := updateGroup n0 1 (fun g =>
    { g with childNodes := favorites.places.map placeNode })
  let n2 :=
    if s.showDistributions then
      updateGroup n1 2 (fun g =>
        { g with childNodes := favorites.distributions.map distribNode })
    else n1
  let n3 := updateGroup n2 1 (fun g => { g with labelText := env.t "FAVORITES_PANEL.PLACES" })
  let n4 := updateGroup n3 0 (fun g => { g with labelText := env.t "FAVORITES_PANEL.SHORTCUTS" })
  let n5 := updateGroup n4 2 (fun g => { g with labelText := env.t "FAVORITES_PANEL.LINUX" })
  { s with nodes := n5 }

/-- The group appended by `checkForWSL` on a truthy probe (lines 84-90):
ordinal 2, localized label, caret shown, expanded, empty child list. -/
def linuxGroup (env : Env) : TreeGroupM :=
  { gid := 2
    labelText := env.t "FAVORITES_PANEL.LINUX"
    hasCaret := true
    isExpanded := true
    childNodes := [] }

/-- `checkForWSL` (LeftPanel.tsx lines 76-95) with the probe's resolution
passed explicitly: the flag is set to the probe result; on a truthy result
the distributions group is pushed onto the node list (with an empty child
list — the source calls `setState` but performs no rebuild of the group's
entries from the Favorites Source). -/
def checkForWSL (env : Env) (hasWSLResult : Bool) (s : PanelState) : PanelState :=
  if hasWSLResult then
    { showDistributions := true, nodes := s.nodes ++ [linuxGroup env] }
  else
    { s with showDistributions := false }

/-- The collections of the Favorites Source a reaction could observe. -/
inductive FavCollection
  | shortcuts
  | places
  | distributions
  deriving Repr, DecidableEq

/-- `installReactions` (LeftPanel.tsx lines 120-140) registers exactly two
reactions: one observing `favoritesState.places` and one observing
`favoritesState.distributions`.  No reaction observes the shortcuts
collection. -/
def installedReactions : List FavCollection :=
  [FavCollection.places, FavCollection.distributions]

/-- Body of the places reaction (lines 121-129): when the panel is hidden the
notification is ignored, otherwise a rebuild runs. -/
def onPlacesChanged (env : Env) (hide : Bool) (fav : FavoritesState)
    (s : PanelState) : PanelState :=
  if hide then s else buildNodes env fav s

/-- Body of the distributions reaction (lines 131-139): same shape as the
places reaction. -/
def onDistributionsChanged (env : Env) (hide : Bool) (fav : FavoritesState)
    (s : PanelState) : PanelState :=
  if hide then s else buildNodes env fav s

/-- `onLanguageChanged` (lines 106-109): an unconditional rebuild. -/
def onLanguageChanged (env : Env) (fav : FavoritesState) (s : PanelState) : PanelState :=
  buildNodes env fav s

/-! ## Selection tracker (LeftPanel.tsx) -/

/-- Child-node list of the group at index `i`, or `[]` when the group is
absent.  (`nodes[2]` exists whenever `showDistributions` is set, since
`checkForWSL` appends the group in the same step that sets the flag; the
`[]` default merely totalizes the function.) -/
def childNodesAt (s : PanelState) (i : Nat) : List TreeNodeM :=
  match s.nodes[i]? with
  | none => []
  | some g => g.childNodes

/-- First value satisfying the search of `find(node => node.nodeData === path)`. -/
def findNode (path : String) : List TreeNodeM → Option TreeNodeM
  | [] => none
  | c :: cs => if c.nodeData = path then some c else findNode path cs

/-- Index of the first node whose `nodeData` equals `path`. -/
def findNodeIdx (path : String) : List TreeNodeM → Option Nat
  | [] => none
  | c :: cs =>
    if c.nodeData = path then some 0
    else (findNodeIdx path cs).map (· + 1)

/-- `getNodeFromPath` (LeftPanel.tsx lines 148-162): search the shortcuts
then the places children; if something was found — or the distributions flag
is off — return that result, else search the distributions children. -/
def getNodeFromPath (s : PanelState) (path : String) : Option TreeNodeM :=
  let shortcuts := childNodesAt s 0
  let places := childNodesAt s 1
  let found :=
    match findNode path shortcuts with
    | some n => some n
    | none => findNode path places
  if found.isSome || !s.showDistributions then found
  else findNode path (childNodesAt s 2)

/-- Position (group index, child index) of the node `getNodeFromPath`
locates; same search order as the source. -/
def getNodePos (s : PanelState) (path : String) : Option (Nat × Nat) :=
  let found :=
    match findNodeIdx path (childNodesAt s 0) with
    | some j => some (0, j)
    | none => (findNodeIdx path (childNodesAt s 1)).map (fun j => (1, j))
  if found.isSome || !s.showDistributions then found
  else (findNodeIdx path (childNodesAt s 2)).map (fun j => (2, j))

def clearNode (c : TreeNodeM) : TreeNodeM := { c with isSelected := false }

def markNode (c : TreeNodeM) : TreeNodeM := { c with isSelected := true }

def clearGroup (g : TreeGroupM) : TreeGroupM :=
  { g with childNodes := g.childNodes.map clearNode }

/-- The clearing pass of `setActiveNode` (lines 166-168): every child node of
every group gets `isSelected = false`. -/
def clearSelection (nodes : List TreeGroupM) : List TreeGroupM :=
  nodes.map clearGroup

/-- Mark the child at position `(gi, ci)` selected (the in-place
`selectedNode.isSelected = true` of line 173, rendered positionally). -/
def markAt (nodes : List TreeGroupM) (gi ci : Nat) : List TreeGroupM :=
  updateGroup nodes gi (fun g =>
    { g with childNodes :=
        match g.childNodes[ci]? with
        | none => g.childNodes
        | some c => g.childNodes.set ci (markNode c) })

/-- `setActiveNode` (LeftPanel.tsx lines 164-175): clear every selection
flag, then mark the node found by the path search (searching the cleared
tree, whose `nodeData` fields are those of the original). -/
def setActiveNode (path : String) (s : PanelState) : PanelState :=
  let cleared : PanelState := { s with nodes := clearSelection s.nodes }
  match getNodePos cleared path with
  | none => cleared
  | some p => { cleared with nodes := markAt cleared.nodes p.1 p.2 }

/-- Number of selected child nodes in one group. -/
def selectedInGroup (g : TreeGroupM) : Nat :=
  (g.childNodes.filter (fun c => c.isSelected)).length

/-- Number of selected child nodes across the whole tree. -/
def selectedCount (s : PanelState) : Nat :=
  (s.nodes.map selectedInGroup).sum

/-! ## Navigation router (LeftPanel.tsx / view-host model)

The window/view state the router drives (`appState.winStates[0]`, the view
states, `FileState`) is not part of the two source files; per the spec it is
an external collaborator, so its operations are modelled from the spec's
View Host interface. -/

/-- Modelled from the spec: a pane of the View Host — an id, the path its
visible cache currently shows, and its readiness status (the source compares
the status against the literal string `ok`, the spec's name for it is
"ready"). -/
structure ViewStateM where
  viewId : Nat
  visiblePath : String
  status : String
  deriving Repr, DecidableEq

/-- Modelled from the spec: the View Host — a split flag, the active pane id
and the two panes. -/
structure WinStateM where
  splitView : Bool
  activeViewId : Nat
  view0 : ViewStateM
  view1 : ViewStateM
  deriving Repr, DecidableEq

/-- Modelled from the spec: the pane that is not the active one. -/
def WinStateM.getInactiveView (w : WinStateM) : ViewStateM :=
  if w.activeViewId = 0 then w.view1 else w.view0

/-- Modelled from the spec: enabling split mode reveals the second pane and
makes it the active one; the router only ever calls this in the enabling
direction (disabling returns to the single pane 0). -/
def WinStateM.toggleSplitViewMode (w : WinStateM) : WinStateM :=
  if w.splitView then { w with splitView := false, activeViewId := 0 }
  else { w with splitView := true, activeViewId := 1 }

/-- Modelled from the spec: make the pane with the given id active. -/
def WinStateM.setActiveView (w : WinStateM) (id : Nat) : WinStateM :=
  { w with activeViewId := id }

/-- The directory cache of the active pane (`appState.getActiveCache()`):
a path and a readiness status. -/
structure FileCache where
  path : String
  status : String
  deriving Repr, DecidableEq

/-- Modelled from the spec: the slice of the application state the router
reads — the first window state and the active pane's visible cache (absent
when there is none). -/
structure AppStateM where
  win : WinStateM
  activeCache : Option FileCache
  deriving Repr, DecidableEq

/-- Outcome of one router activation: the updated application state, the
navigate calls issued to alternate panes (`viewState.addCache(path, -1,
true)`, recorded as pane id × path) and the navigate calls issued to the
active cache (`activeCache.cd(path)`).  Navigation is asynchronous, so
issuing a call does not itself change any pane's visible path. -/
structure RouterResult where
  app : AppStateM
  navCalls : List (Nat × String)
  cdCalls : List String
  deriving Repr, DecidableEq

/-- `openFavorite` (LeftPanel.tsx lines 188-209).  Same-view branch: navigate
the active cache iff it exists and its status is the ready literal `ok`.
Alternate-view branch: capture the inactive pane, enable split mode if not
split (else activate that pane), then issue a navigate call iff the captured
pane's visible path differs from the target. -/
def openFavorite (app : AppStateM) (path : String) (sameView : Bool) : RouterResult :=
  if sameView then
    match app.activeCache with
    | some activeCache =>
      if activeCache.status = "ok" then
        { app := app, navCalls := [], cdCalls := [path] }
      else
        { app := app, navCalls := [], cdCalls := [] }
    | none => { app := app, navCalls := [], cdCalls := [] }
  else
    let winState := app.win
    let viewState := winState.getInactiveView
    let winState1 :=
      if !winState.splitView then winState.toggleSplitViewMode
      else winState.setActiveView viewState.viewId
    if viewState.visiblePath ≠ path then
      { app := { app with win := winState1 }
        navCalls := [(viewState.viewId, path)], cdCalls := [] }
    else
      { app := { app with win := winState1 }, navCalls := [], cdCalls := [] }

/-- A navigation failure as carried by a rejected navigate promise: a
human-readable message and a machine code. -/
structure NavErr where
  message : String
  code : String
  deriving Repr, DecidableEq

/-- Eventual outcome of the asynchronous navigate promise(s) issued during
one activation. -/
inductive NavOutcome
  | ok
  | rejected (e : NavErr)
  deriving Repr, DecidableEq

/-- Observable outcome of one `onNodeClick`: the updated application state,
the messages submitted to `AppAlert.show`, and the promise rejections that no
caller handled. -/
structure ClickResult where
  app : AppStateM
  alerts : List String
  unhandledRejections : List NavErr
  deriving Repr, DecidableEq

/-- `onNodeClick` (LeftPanel.tsx lines 211-219).  The handler runs
`try { await this.openFavorite(...) } catch (err) { AppAlert.show(...) }`.
`openFavorite` has return type `void` and neither returns nor awaits the
promises produced by `activeCache.cd` (line 193) or `viewState.addCache`
(line 206), so the value the `await` observes always resolves normally: the
`Except.error` branch below is the faithful embedding of the catch block and
is unreachable.  A rejection of a discarded navigation promise becomes an
unhandled promise rejection instead. -/
def onNodeClick (app : AppStateM) (nodeData : String) (modifierPressed : Bool)
    (navOutcome : NavOutcome) : ClickResult :=
  let awaited : Except NavErr RouterResult :=
    Except.ok (openFavorite app nodeData (!modifierPressed))
  match awaited with
  | Except.error err =>
    { app := app
      alerts := [err.message ++ " (" ++ err.code ++ ")"]
      unhandledRejections := [] }
  | Except.ok r =>
    { app := r.app
      alerts := []
      unhandledRejections :=
        match navOutcome with
        | NavOutcome.ok => []
        | NavOutcome.rejected e =>
          if r.cdCalls.isEmpty && r.navCalls.isEmpty then [] else [e] }

/-- `onNodeToggle` (lines 221-224): a local flip of the node's expansion
flag. -/
def onNodeToggle (g : TreeGroupM) : TreeGroupM :=
  { g with isExpanded := !g.isExpanded }

/-! ## Confirmation queue (AppAlert.tsx)

`Alerter.show` / `Alerter.onClose` model.  `this.defer` is the in-flight
slot; callers that find it occupied await its promise and re-issue
themselves.  Since the runtime is single-threaded with FIFO microtasks, a
resolve wakes the waiters in registration order, each re-running `show`.
Calls are identified by a submission index; the observable history is a
trace of prompt-open and promise-resolve events. -/

/-- Observable events of the confirmation queue. -/
inductive ATrace
  | opened (i : Nat)
  | resolved (i : Nat)
  deriving Repr, DecidableEq

/-- State of the `Alerter` component: the owner of the in-flight defer
(`none` iff `this.defer === null`), the `isOpen` React state, the calls
awaiting the in-flight defer's promise in registration order, and the event
trace. -/
structure AlerterState where
  current : Option Nat
  isOpen : Bool
  waiting : List Nat
  trace : List ATrace
  deriving Repr, DecidableEq

def AlerterState.init : AlerterState :=
  { current := none, isOpen := false, waiting := [], trace := [] }

/-- `Alerter.show` (AppAlert.tsx lines 43-55) invoked by call `i`: with no
defer in flight, create one, open the prompt and return its promise;
otherwise register on the in-flight promise (the re-issue runs when that
promise resolves, see `close`). -/
def showAlert (s : AlerterState) (i : Nat) : AlerterState :=
  match s.current with
  | none =>
    { s with current := some i, isOpen := true, trace := s.trace ++ [ATrace.opened i] }
  | some _ => { s with waiting := s.waiting ++ [i] }

/-- `Alerter.onClose` (AppAlert.tsx lines 32-41): close the prompt, clear the
slot, resolve the owner's promise; the resolution wakes every registered
waiter in order, and each re-issues `show` with its original arguments
(the tail of line 53, `return this.show(message, options)`).  Closing with
no prompt open cannot occur (the dialog only renders while open). -/
def closeAlert (s : AlerterState) : AlerterState :=
  match s.current with
  | none => s
  | some i =>
    let s1 : AlerterState :=
      { current := none, isOpen := false, waiting := []
        trace := s.trace ++ [ATrace.resolved i] }
    s.waiting.foldl showAlert s1

/-- External events driving the queue: a call to `present`/`show`, or the
user dismissing the open prompt. -/
inductive AEvent
  | call (i : Nat)
  | close
  deriving Repr, DecidableEq

def stepEvent (s : AlerterState) (e : AEvent) : AlerterState :=
  match e with
  | AEvent.call i => showAlert s i
  | AEvent.close => closeAlert s

def runEvents (es : List AEvent) : AlerterState :=
  es.foldl stepEvent AlerterState.init

/-- The fully serialized trace: each call's prompt opens and then its promise
resolves, in submission order. -/
def serializedTrace : List Nat → List ATrace
  | [] => []
  | i :: is => ATrace.opened i :: ATrace.resolved i :: serializedTrace is

/-- `openDepthOk d tr` checks that, starting from `d` open prompts, the trace
never has more than one prompt open at any instant (and never resolves a
prompt that is not open). -/
def openDepthOk : Nat → List ATrace → Bool
  | _, [] => true
  | d, ATrace.opened _ :: tr => d == 0 && openDepthOk 1 tr
  | d, ATrace.resolved _ :: tr => d == 1 && openDepthOk 0 tr

/-! ## Concrete instances used by counterexamples and witnesses -/

/-- A concrete environment: identity translation, an icon table with a
single entry, a fixed username. -/
def envC : Env :=
  { t := fun k => k
    icons := fun k => if k = "HOME_DIR" then some "home" else none
    username := "user" }

/-- Panel state after the probe resolved truthy on the freshly constructed
panel: three groups, distributions flag set. -/
def s3 : PanelState := checkForWSL envC true (initialState envC)

/-- A favorites source holding one entry per collection. -/
def favC : FavoritesState :=
  { shortcuts := [{ label := "HOME_DIR", path := "/home/u", icon := none }]
    places := [{ label := "Data", path := "/data", icon := some "db" }]
    distributions := [{ label := "Ubuntu", path := "/wsl/ubuntu", icon := some "u" }] }

/-- A favorites source whose places and distributions collections contain
entries with the same path. -/
def favDup : FavoritesState :=
  { shortcuts := []
    places := [{ label := "Data", path := "/x", icon := none }]
    distributions := [{ label := "Ubuntu", path := "/x", icon := none }] }

/-! ## Structural lemmas about the tree synchronizer -/

theorem updateGroup_length (nodes : List TreeGroupM) (i : Nat)
    (f : TreeGroupM → TreeGroupM) : (updateGroup nodes i f).length = nodes.length := by
  unfold updateGroup
  cases h : nodes[i]? with
  | none => rfl
  | some g => simp

theorem buildNodes_length (env : Env) (fav : FavoritesState) (s : PanelState) :
    (buildNodes env fav s).nodes.length = s.nodes.length := by
  unfold buildNodes
  cases hs : s.showDistributions <;> simp [hs, updateGroup_length]

/-- What one rebuild does to each group: groups 0 and 1 get the mapped image
of the shortcuts resp. places collections; group 2 gets the mapped image of
the distributions collection iff the flag is set (else its child list is
untouched); all present group labels are refreshed. -/
theorem buildNodes_spec (env : Env) (fav : FavoritesState) (s : PanelState)
    (h01 : 1 < s.nodes.length)
    (hwf : s.showDistributions = true → 2 < s.nodes.length) :
    childNodesAt (buildNodes env fav s) 0 = fav.shortcuts.map (shortcutNode env)
    ∧ childNodesAt (buildNodes env fav s) 1 = fav.places.map placeNode
    ∧ childNodesAt (buildNodes env fav s) 2 =
        (if s.showDistributions then fav.distributions.map distribNode
         else childNodesAt s 2)
    ∧ ((buildNodes env fav s).nodes[0]?).map TreeGroupM.labelText
        = some (env.t "FAVORITES_PANEL.SHORTCUTS")
    ∧ ((buildNodes env fav s).nodes[1]?).map TreeGroupM.labelText
        = some (env.t "FAVORITES_PANEL.PLACES")
    ∧ (2 < s.nodes.length →
        ((buildNodes env fav s).nodes[2]?).map TreeGroupM.labelText
          = some (env.t "FAVORITES_PANEL.LINUX")) := by
  obtain ⟨flag, ns⟩ := s
  match ns, h01 with
  | g0 :: g1 :: rest, _ =>
    simp only at hwf
    cases flag with
    | false =>
      cases rest with
      | nil => simp [buildNodes, updateGroup, childNodesAt, List.set]
      | cons g2 rest2 => simp [buildNodes, updateGroup, childNodesAt, List.set]
    | true =>
      have h2 : 2 < (g0 :: g1 :: rest).length := hwf rfl
      cases rest with
      | nil => simp at h2
      | cons g2 rest2 => simp [buildNodes, updateGroup, childNodesAt, List.set]

theorem clearSelection_length (ns : List TreeGroupM) :
    (clearSelection ns).length = ns.length := by
  simp [clearSelection]

theorem markAt_length (ns : List TreeGroupM) (gi ci : Nat) :
    (markAt ns gi ci).length = ns.length := updateGroup_length ..

theorem setActiveNode_length (p : String) (s : PanelState) :
    (setActiveNode p s).nodes.length = s.nodes.length := by
  simp only [setActiveNode]
  split <;> simp [markAt_length, clearSelection_length]

/-! ## String identity lemmas -/

theorem string_append_left_cancel {p a b : String} : p ++ a = p ++ b ↔ a = b := by
  constructor
  · intro h
    have hd : (p ++ a).data = (p ++ b).data := by rw [h]
    rw [String.data_append, String.data_append] at hd
    exact String.ext (List.append_cancel_left hd)
  · intro h; rw [h]

theorem sTag_ne_pTag (a b : String) : "s_" ++ a ≠ "p_" ++ b := by
  intro h
  have hd : ("s_" ++ a).data = ("p_" ++ b).data := by rw [h]
  rw [String.data_append, String.data_append] at hd
  simp [show ("s_" : String).data = ['s', '_'] from rfl,
        show ("p_" : String).data = ['p', '_'] from rfl] at hd

/-! ## Claim theorems: tree synchronizer -/

/-- C10: while the panel's hide prop is true, a places or distributions
change notification performs no rebuild and leaves the tree model entirely
unchanged; the tree is only resynchronized while the panel is visible. -/
theorem hidden_panel_ignores_changes (env : Env) (fav : FavoritesState) (s : PanelState) :
    onPlacesChanged env true fav s = s ∧ onDistributionsChanged env true fav s = s :=
  ⟨rfl, rfl⟩

/-- C3 counterexample: with a nonempty distributions collection in the
Favorites Source, a truthy probe resolution appends the extra group with an
empty child list — it does not rebuild that group's entries from the
Favorites Source, whose mapped image is nonempty. -/
theorem probe_no_rebuild_counterexample :
    childNodesAt (checkForWSL envC true (initialState envC)) 2 = []
    ∧ favC.distributions.map distribNode ≠ [] := by
  exact ⟨rfl, by decide⟩

/-- C3 (amended): when the probe resolves truthy the panel flips its flag
and appends the extra-category group after the fixed groups, with an
initially empty node list and default expanded state, and re-renders — the
group's entries are only populated by a later rebuild trigger; a falsy probe
never adds the group; once added, the group is never removed by rebuilds or
selection updates. -/
theorem probe_appends_extra_group (env : Env) (b : Bool) (s : PanelState)
    (fav : FavoritesState) (p : String) :
    (checkForWSL env b s).showDistributions = b
    ∧ (checkForWSL env b s).nodes
        = (if b then s.nodes ++ [linuxGroup env] else s.nodes)
    ∧ (linuxGroup env).childNodes = [] ∧ (linuxGroup env).isExpanded = true
    ∧ (buildNodes env fav (checkForWSL env b s)).nodes.length
        = (checkForWSL env b s).nodes.length
    ∧ (setActiveNode p (checkForWSL env b s)).nodes.length
        = (checkForWSL env b s).nodes.length := by
  refine ⟨?_, ?_, rfl, rfl, buildNodes_length .., setActiveNode_length ..⟩
  · cases b <;> simp [checkForWSL]
  · cases b <;> simp [checkForWSL]

/-- C4 counterexample: a places-change notification on a visible panel also
replaces the shortcuts group's node sequence — the rebuild is not limited to
the affected group. -/
theorem places_trigger_rebuilds_all_counterexample :
    childNodesAt (onPlacesChanged envC false favC (initialState envC)) 0
      ≠ childNodesAt (initialState envC) 0 := by decide

/-- C4 (amended): rebuilds are triggered by three events — the places
collection changed, the distributions collection changed (each ignored while
the panel is hidden) and the active language changed; no reaction observes
the shortcuts collection; and every trigger performs a full rebuild,
replacing the node sequences of all groups (shortcuts, places, and
distributions when the flag is set) and refreshing every present group
header label. -/
theorem rebuild_triggers (env : Env) (fav : FavoritesState) (s : PanelState)
    (h01 : 1 < s.nodes.length)
    (hwf : s.showDistributions = true → 2 < s.nodes.length) :
    FavCollection.shortcuts ∉ installedReactions
    ∧ installedReactions = [FavCollection.places, FavCollection.distributions]
    ∧ onPlacesChanged env false fav s = buildNodes env fav s
    ∧ onDistributionsChanged env false fav s = buildNodes env fav s
    ∧ onLanguageChanged env fav s = buildNodes env fav s
    ∧ childNodesAt (buildNodes env fav s) 0 = fav.shortcuts.map (shortcutNode env)
    ∧ childNodesAt (buildNodes env fav s) 1 = fav.places.map placeNode
    ∧ childNodesAt (buildNodes env fav s) 2 =
        (if s.showDistributions then fav.distributions.map distribNode
         else childNodesAt s 2)
    ∧ ((buildNodes env fav s).nodes[0]?).map TreeGroupM.labelText
        = some (env.t "FAVORITES_PANEL.SHORTCUTS")
    ∧ ((buildNodes env fav s).nodes[1]?).map TreeGroupM.labelText
        = some (env.t "FAVORITES_PANEL.PLACES") := by
  obtain ⟨hc0, hc1, hc2, hl0, hl1, _⟩ := buildNodes_spec env fav s h01 hwf
  exact ⟨by decide, rfl, rfl, rfl, rfl, hc0, hc1, hc2, hl0, hl1⟩

theorem rebuild_triggers_witness :
    (1 < s3.nodes.length)
    ∧ (s3.showDistributions = true → 2 < s3.nodes.length)
    ∧ (FavCollection.shortcuts ∉ installedReactions
      ∧ installedReactions = [FavCollection.places, FavCollection.distributions]
      ∧ onPlacesChanged envC false favC s3 = buildNodes envC favC s3
      ∧ onDistributionsChanged envC false favC s3 = buildNodes envC favC s3
      ∧ onLanguageChanged envC favC s3 = buildNodes envC favC s3
      ∧ childNodesAt (buildNodes envC favC s3) 0 = favC.shortcuts.map (shortcutNode envC)
      ∧ childNodesAt (buildNodes envC favC s3) 1 = favC.places.map placeNode
      ∧ childNodesAt (buildNodes envC favC s3) 2 =
          (if s3.showDistributions then favC.distributions.map distribNode
           else childNodesAt s3 2)
      ∧ ((buildNodes envC favC s3).nodes[0]?).map TreeGroupM.labelText
          = some (envC.t "FAVORITES_PANEL.SHORTCUTS")
      ∧ ((buildNodes envC favC s3).nodes[1]?).map TreeGroupM.labelText
          = some (envC.t "FAVORITES_PANEL.PLACES")) :=
  ⟨by decide, by decide, rebuild_triggers envC favC s3 (by decide) (by decide)⟩

/-- C8 counterexample: after a rebuild with the probe truthy, a places node
and a distributions node that share the path `/x` receive the same identity
`p_/x` — node identities are not distinct across these two groups. -/
theorem shared_identity_counterexample :
    (childNodesAt (buildNodes envC favDup s3) 1).map TreeNodeM.id = ["p_/x"]
    ∧ (childNodesAt (buildNodes envC favDup s3) 2).map TreeNodeM.id = ["p_/x"] := by
  exact ⟨rfl, rfl⟩

/-- C8 (amended): each node's identity is a group tag followed by the
entry's path — `s_` for shortcuts but `p_` for both places and
distributions — so identities are stable across rebuilds for the same
(group, path) pair, and shortcut identities are distinct from those of the
other two groups; a places node and a distributions node with the same path,
however, share one identity. -/
theorem node_identity (env env' : Env) (lb lb' p q : String) (ic ic' : Option String) :
    (shortcutNode env ⟨lb, p, ic⟩).id = "s_" ++ p
    ∧ (placeNode ⟨lb, p, ic⟩).id = "p_" ++ p
    ∧ (distribNode ⟨lb, p, ic⟩).id = "p_" ++ p
    ∧ (shortcutNode env ⟨lb, p, ic⟩).id = (shortcutNode env' ⟨lb', p, ic'⟩).id
    ∧ (placeNode ⟨lb, p, ic⟩).id = (placeNode ⟨lb', p, ic'⟩).id
    ∧ (distribNode ⟨lb, p, ic⟩).id = (distribNode ⟨lb', p, ic'⟩).id
    ∧ (shortcutNode env ⟨lb, p, ic⟩).id ≠ (placeNode ⟨lb', q, ic'⟩).id
    ∧ (shortcutNode env ⟨lb, p, ic⟩).id ≠ (distribNode ⟨lb', q, ic'⟩).id
    ∧ ((placeNode ⟨lb, p, ic⟩).id = (distribNode ⟨lb', q, ic'⟩).id ↔ p = q) := by
  refine ⟨rfl, rfl, rfl, rfl, rfl, rfl, sTag_ne_pTag _ _, sTag_ne_pTag _ _, ?_⟩
  exact string_append_left_cancel

/-- C9: a rebuild never fails observably — every entry yields a node, a miss
in the icon table yields a node with no icon (a neutral icon) rather than an
error, a places or distributions entry carries its own (possibly absent)
icon through unchanged, and every node keeps the raw path as its tooltip. -/
theorem rebuild_total (env : Env) (fav : FavoritesState) (s : PanelState)
    (h01 : 1 < s.nodes.length)
    (hwf : s.showDistributions = true → 2 < s.nodes.length) :
    (childNodesAt (buildNodes env fav s) 0).length = fav.shortcuts.length
    ∧ (childNodesAt (buildNodes env fav s) 1).length = fav.places.length
    ∧ (s.showDistributions = true →
        (childNodesAt (buildNodes env fav s) 2).length = fav.distributions.length)
    ∧ (∀ e : Favorite,
        (shortcutNode env e).title = e.path
        ∧ (shortcutNode env e).icon = env.icons e.label
        ∧ (placeNode e).title = e.path ∧ (placeNode e).icon = e.icon
        ∧ (distribNode e).title = e.path ∧ (distribNode e).icon = e.icon) := by
  obtain ⟨hc0, hc1, hc2, _⟩ := buildNodes_spec env fav s h01 hwf
  refine ⟨by rw [hc0]; simp, by rw [hc1]; simp, ?_,
    fun e => ⟨rfl, rfl, rfl, rfl, rfl, rfl⟩⟩
  intro hd
  rw [hc2]
  simp [hd]

theorem rebuild_total_witness :
    (1 < s3.nodes.length)
    ∧ (s3.showDistributions = true → 2 < s3.nodes.length)
    ∧ ((childNodesAt (buildNodes envC favC s3) 0).length = favC.shortcuts.length
      ∧ (childNodesAt (buildNodes envC favC s3) 1).length = favC.places.length
      ∧ (s3.showDistributions = true →
          (childNodesAt (buildNodes envC favC s3) 2).length = favC.distributions.length)
      ∧ (∀ e : Favorite,
          (shortcutNode envC e).title = e.path
          ∧ (shortcutNode envC e).icon = envC.icons e.label
          ∧ (placeNode e).title = e.path ∧ (placeNode e).icon = e.icon
          ∧ (distribNode e).title = e.path ∧ (distribNode e).icon = e.icon)) :=
  ⟨by decide, by decide, rebuild_total envC favC s3 (by decide) (by decide)⟩

/-! ## Claim theorems: navigation router -/

/-- Well-formed window state: the panes carry their positional ids, the
active id is one of them, and (modelled from the spec) when not split the
single visible pane — pane 0 — is the active one. -/
def WinStateM.wf (w : WinStateM) : Prop :=
  w.view0.viewId = 0 ∧ w.view1.viewId = 1
  ∧ (w.activeViewId = 0 ∨ w.activeViewId = 1)
  ∧ (w.splitView = false → w.activeViewId = 0)

instance (w : WinStateM) : Decidable w.wf := by
  unfold WinStateM.wf; infer_instance

/-- A concrete well-formed window state: not split, pane 0 active. -/
def winC : WinStateM :=
  { splitView := false
    activeViewId := 0
    view0 := { viewId := 0, visiblePath := "/home/u", status := "ok" }
    view1 := { viewId := 1, visiblePath := "/", status := "ok" } }

/-- Application state with a ready active cache. -/
def appReady : AppStateM :=
  { win := winC, activeCache := some { path := "/home/u", status := "ok" } }

/-- Application state whose active cache is still busy. -/
def appBusy : AppStateM :=
  { win := winC, activeCache := some { path := "/home/u", status := "busy" } }

/-- C7: a same-view activation with the active pane's readiness status not
the ready literal (the source's status string `ok`) performs no pane
mutation at all — no navigation, no error, no prompt; with a ready status it
issues exactly one navigate call to the node's path on the active cache. -/
theorem same_view_readiness_gate (app : AppStateM) (path : String) :
    (app.activeCache.map FileCache.status ≠ some "ok" →
      openFavorite app path true = { app := app, navCalls := [], cdCalls := [] })
    ∧ (app.activeCache.map FileCache.status = some "ok" →
      openFavorite app path true = { app := app, navCalls := [], cdCalls := [path] }) := by
  constructor
  · intro h
    cases hc : app.activeCache with
    | none => simp [openFavorite, hc]
    | some c =>
      have hs : ¬ c.status = "ok" := by
        intro he
        apply h
        rw [hc]
        simp [he]
      simp [openFavorite, hc, hs]
  · intro h
    cases hc : app.activeCache with
    | none => rw [hc] at h; exact absurd h (by simp)
    | some c =>
      rw [hc] at h
      have hs : c.status = "ok" := by simpa using h
      simp [openFavorite, hc, hs]

theorem same_view_readiness_gate_witness :
    (appBusy.activeCache.map FileCache.status ≠ some "ok")
    ∧ openFavorite appBusy "/data" true = { app := appBusy, navCalls := [], cdCalls := [] } :=
  ⟨by decide, (same_view_readiness_gate appBusy "/data").1 (by decide)⟩

/-- C6: an activation with the modifier pressed ends with split mode
enabled and the previously inactive pane (the second pane, when split mode
was just enabled) active, and issues a navigate call to that pane iff its
currently visible path differs from the target; the active cache is never
touched. -/
theorem alternate_view_activation (app : AppStateM) (path : String)
    (hwf : app.win.wf) :
    (openFavorite app path false).app.win.splitView = true
    ∧ (openFavorite app path false).app.win.activeViewId
        = (app.win.getInactiveView).viewId
    ∧ (openFavorite app path false).navCalls
        = (if (app.win.getInactiveView).visiblePath = path then []
           else [((app.win.getInactiveView).viewId, path)])
    ∧ (openFavorite app path false).cdCalls = []
    ∧ (openFavorite app path false).app.activeCache = app.activeCache := by
  obtain ⟨h0, h1, hact, hns⟩ := hwf
  cases hsp : app.win.splitView with
  | false =>
    have ha : app.win.activeViewId = 0 := hns hsp
    by_cases hp : app.win.view1.visiblePath = path <;>
      simp [openFavorite, WinStateM.getInactiveView, WinStateM.toggleSplitViewMode,
        WinStateM.setActiveView, hsp, ha, h1, hp]
  | true =>
    rcases hact with ha | ha
    · by_cases hp : app.win.view1.visiblePath = path <;>
        simp [openFavorite, WinStateM.getInactiveView, WinStateM.toggleSplitViewMode,
          WinStateM.setActiveView, hsp, ha, h0, h1, hp]
    · by_cases hp : app.win.view0.visiblePath = path <;>
        simp [openFavorite, WinStateM.getInactiveView, WinStateM.toggleSplitViewMode,
          WinStateM.setActiveView, hsp, ha, h0, h1, hp]

theorem alternate_view_activation_witness :
    appReady.win.wf
    ∧ ((openFavorite appReady "/data" false).app.win.splitView = true
      ∧ (openFavorite appReady "/data" false).app.win.activeViewId
          = (appReady.win.getInactiveView).viewId
      ∧ (openFavorite appReady "/data" false).navCalls
          = (if (appReady.win.getInactiveView).visiblePath = "/data" then []
             else [((appReady.win.getInactiveView).viewId, "/data")])
      ∧ (openFavorite appReady "/data" false).cdCalls = []
      ∧ (openFavorite appReady "/data" false).app.activeCache = appReady.activeCache) :=
  ⟨by decide, alternate_view_activation appReady "/data" (by decide)⟩

/-- C1 (code bug): a same-view activation on a ready pane issues the
navigate call, but when that call's promise rejects the formatted message is
never submitted to the confirmation queue — `openFavorite` discards the
promise returned by `activeCache.cd`, so the rejection bypasses
`onNodeClick`'s catch block and the failure propagates silently past the
user as an unhandled rejection, contrary to the claim (and to the intent of
the catch block, which formats exactly this message). -/
theorem nav_failure_not_surfaced :
    (openFavorite appReady "/forbidden" true).cdCalls = ["/forbidden"]
    ∧ onNodeClick appReady "/forbidden" false
        (NavOutcome.rejected { message := "Permission denied", code := "EACCES" })
      = { app := appReady
          alerts := []
          unhandledRejections := [{ message := "Permission denied", code := "EACCES" }] }
    ∧ (onNodeClick appReady "/forbidden" false
        (NavOutcome.rejected { message := "Permission denied", code := "EACCES" })).alerts
      ≠ ["Permission denied (EACCES)"] := by
  refine ⟨rfl, by decide, by decide⟩

/-! ## Selection tracker lemmas -/

def countNodes (ns : List TreeGroupM) : Nat := (ns.map selectedInGroup).sum

theorem selectedCount_eq_countNodes (s : PanelState) :
    selectedCount s = countNodes s.nodes := rfl

theorem findNodeIdx_none_iff (path : String) (l : List TreeNodeM) :
    findNodeIdx path l = none ↔ findNode path l = none := by
  induction l with
  | nil => simp [findNodeIdx, findNode]
  | cons c cs ih =>
    by_cases h : c.nodeData = path <;> simp [findNodeIdx, findNode, h, ih]

theorem findNodeIdx_spec (path : String) (l : List TreeNodeM) (i : Nat)
    (h : findNodeIdx path l = some i) :
    ∃ c, l[i]? = some c ∧ c.nodeData = path := by
  induction l generalizing i with
  | nil => simp [findNodeIdx] at h
  | cons c cs ih =>
    by_cases hc : c.nodeData = path
    · simp [findNodeIdx, hc] at h
      exact ⟨c, by simp [← h], hc⟩
    · simp [findNodeIdx, hc] at h
      obtain ⟨j, hj, rfl⟩ := h
      obtain ⟨d, hd, hdp⟩ := ih j hj
      exact ⟨d, by simpa using hd, hdp⟩

theorem findNodeIdx_map_clear (path : String) (l : List TreeNodeM) :
    findNodeIdx path (l.map clearNode) = findNodeIdx path l := by
  induction l with
  | nil => rfl
  | cons c cs ih =>
    by_cases h : c.nodeData = path <;> simp [findNodeIdx, clearNode, h, ih]

theorem childNodesAt_clear (s : PanelState) (i : Nat) :
    childNodesAt { s with nodes := clearSelection s.nodes } i
      = (childNodesAt s i).map clearNode := by
  simp only [childNodesAt, clearSelection]
  rw [List.getElem?_map]
  cases h : s.nodes[i]? with
  | none => rfl
  | some g => rfl

theorem getNodePos_clear (s : PanelState) (p : String) :
    getNodePos { s with nodes := clearSelection s.nodes } p = getNodePos s p := by
  simp only [getNodePos, childNodesAt_clear, findNodeIdx_map_clear]

theorem clearNode_idem (c : TreeNodeM) : clearNode (clearNode c) = clearNode c := rfl

theorem clearGroup_idem (g : TreeGroupM) : clearGroup (clearGroup g) = clearGroup g := by
  simp [clearGroup, list_map_idem clearNode_idem]

theorem clearSelection_idem (ns : List TreeGroupM) :
    clearSelection (clearSelection ns) = clearSelection ns :=
  list_map_idem clearGroup_idem ns

theorem clearGroup_mark (g : TreeGroupM) (ci : Nat) :
    clearGroup { g with childNodes :=
        match g.childNodes[ci]? with
        | none => g.childNodes
        | some c => g.childNodes.set ci (markNode c) } = clearGroup g := by
  cases hc : g.childNodes[ci]? with
  | none => rfl
  | some c =>
    simp only [clearGroup]
    congr 1
    rw [List.map_set]
    have hm : clearNode (markNode c) = clearNode c := rfl
    rw [hm]
    refine list_set_self _ _ _ ?_
    rw [List.getElem?_map, hc]
    rfl

theorem clearSelection_markAt (ns : List TreeGroupM) (gi ci : Nat) :
    clearSelection (markAt ns gi ci) = clearSelection ns := by
  unfold markAt updateGroup
  cases hg : ns[gi]? with
  | none => rfl
  | some g =>
    simp only [clearSelection]
    rw [List.map_set, clearGroup_mark]
    refine list_set_self _ _ _ ?_
    rw [List.getElem?_map, hg]
    rfl

/-- `setActiveNode` factors through the cleared state. -/
def applyCleared (p : String) (cleared : PanelState) : PanelState :=
  match getNodePos cleared p with
  | none => cleared
  | some pos => { cleared with nodes := markAt cleared.nodes pos.1 pos.2 }

theorem setActiveNode_eq_applyCleared (p : String) (s : PanelState) :
    setActiveNode p s = applyCleared p { s with nodes := clearSelection s.nodes } := rfl

theorem setActiveNode_flag (p : String) (s : PanelState) :
    (setActiveNode p s).showDistributions = s.showDistributions := by
  rw [setActiveNode_eq_applyCleared]
  unfold applyCleared
  split <;> rfl

theorem setActiveNode_clearSelection (p : String) (s : PanelState) :
    clearSelection (setActiveNode p s).nodes = clearSelection s.nodes := by
  rw [setActiveNode_eq_applyCleared]
  unfold applyCleared
  split
  · exact clearSelection_idem s.nodes
  · rw [clearSelection_markAt]
    exact clearSelection_idem s.nodes

theorem setActiveNode_congr (p : String) (s1 s2 : PanelState)
    (hf : s1.showDistributions = s2.showDistributions)
    (hn : clearSelection s1.nodes = clearSelection s2.nodes) :
    setActiveNode p s1 = setActiveNode p s2 := by
  rw [setActiveNode_eq_applyCleared, setActiveNode_eq_applyCleared]
  show applyCleared p (PanelState.mk s1.showDistributions (clearSelection s1.nodes))
    = applyCleared p (PanelState.mk s2.showDistributions (clearSelection s2.nodes))
  rw [hf, hn]

theorem setActiveNode_idem (p : String) (s : PanelState) :
    setActiveNode p (setActiveNode p s) = setActiveNode p s :=
  setActiveNode_congr p (setActiveNode p s) s
    (setActiveNode_flag p s) (setActiveNode_clearSelection p s)

theorem filter_clear (l : List TreeNodeM) :
    (l.map clearNode).filter (fun c => c.isSelected) = [] := by
  induction l with
  | nil => rfl
  | cons c cs ih => simp [clearNode, ih]

theorem selectedInGroup_clearGroup (g : TreeGroupM) :
    selectedInGroup (clearGroup g) = 0 := by
  simp [selectedInGroup, clearGroup, filter_clear]

theorem countNodes_clear (ns : List TreeGroupM) :
    countNodes (clearSelection ns) = 0 := by
  induction ns with
  | nil => rfl
  | cons g gs ih =>
    simp only [clearSelection, List.map_cons, countNodes, List.sum_cons] at ih ⊢
    rw [selectedInGroup_clearGroup, ih]

theorem selectedInGroup_eq_zero_of_mem (ns : List TreeGroupM)
    (hz : countNodes ns = 0) (g : TreeGroupM) (hgm : g ∈ ns) :
    selectedInGroup g = 0 :=
  List.sum_eq_zero_iff.mp hz _ (List.mem_map_of_mem _ hgm)

theorem filter_set_marked (l : List TreeNodeM) (ci : Nat) (c : TreeNodeM)
    (hc : l[ci]? = some c)
    (hz : l.filter (fun x => x.isSelected) = []) :
    (l.set ci (markNode c)).filter (fun x => x.isSelected) = [markNode c] := by
  induction l generalizing ci with
  | nil => simp at hc
  | cons d ds ih =>
    rw [List.filter_cons] at hz
    by_cases hd : d.isSelected
    · simp [hd] at hz
    · simp only [hd, Bool.false_eq_true, if_false, ite_false] at hz
      cases ci with
      | zero =>
        simp at hc
        subst hc
        simp [List.set, List.filter_cons, markNode, hz]
      | succ j =>
        simp at hc
        simp [List.set, List.filter_cons, hd, ih j hc hz]

theorem selectedInGroup_mark (g : TreeGroupM) (ci : Nat) (c : TreeNodeM)
    (hc : g.childNodes[ci]? = some c) (hz : selectedInGroup g = 0) :
    selectedInGroup { g with childNodes := g.childNodes.set ci (markNode c) } = 1 := by
  have hz' : g.childNodes.filter (fun x => x.isSelected) = [] :=
    List.eq_nil_of_length_eq_zero hz
  simp [selectedInGroup, filter_set_marked _ _ _ hc hz']

theorem countNodes_set (ns : List TreeGroupM) (gi : Nat) (g g' : TreeGroupM)
    (hg : ns[gi]? = some g) (hz : countNodes ns = 0) (h1 : selectedInGroup g' = 1) :
    countNodes (ns.set gi g') = 1 := by
  induction ns generalizing gi with
  | nil => simp at hg
  | cons h t ih =>
    simp only [countNodes, List.map_cons, List.sum_cons] at hz
    have hzh : selectedInGroup h = 0 := by omega
    have hzt : (List.map selectedInGroup t).sum = 0 := by omega
    cases gi with
    | zero =>
      simp at hg
      subst hg
      simp only [List.set, countNodes, List.map_cons, List.sum_cons, h1, hzt]
    | succ j =>
      simp at hg
      have ht : countNodes (t.set j g') = 1 := ih j hg (by simpa [countNodes] using hzt)
      simp only [List.set, countNodes, List.map_cons, List.sum_cons, hzh]
      simpa [countNodes] using ht

theorem countNodes_markAt (ns : List TreeGroupM) (gi ci : Nat)
    (g : TreeGroupM) (c : TreeNodeM)
    (hg : ns[gi]? = some g) (hc : g.childNodes[ci]? = some c)
    (hz : countNodes ns = 0) :
    countNodes (markAt ns gi ci) = 1 := by
  unfold markAt updateGroup
  rw [hg]
  simp only [hc]
  refine countNodes_set ns gi g _ hg hz ?_
  exact selectedInGroup_mark g ci c hc
    (selectedInGroup_eq_zero_of_mem ns hz g (List.getElem?_mem hg))

theorem clearSelection_not_selected (ns : List TreeGroupM) :
    ∀ g ∈ clearSelection ns, ∀ c ∈ g.childNodes, c.isSelected = false := by
  intro g hg c hc
  obtain ⟨g0, _, rfl⟩ := List.mem_map.mp hg
  simp only [clearGroup] at hc
  obtain ⟨c0, _, rfl⟩ := List.mem_map.mp hc
  rfl

theorem childNodesAt_elem (s : PanelState) (i ci : Nat) (c : TreeNodeM)
    (h : (childNodesAt s i)[ci]? = some c) :
    ∃ g, s.nodes[i]? = some g ∧ g.childNodes[ci]? = some c := by
  unfold childNodesAt at h
  cases hg : s.nodes[i]? with
  | none => rw [hg] at h; simp at h
  | some g => rw [hg] at h; exact ⟨g, rfl, h⟩

theorem getNodePos_spec (s : PanelState) (p : String) (gi ci : Nat)
    (h : getNodePos s p = some (gi, ci)) :
    ∃ g c, s.nodes[gi]? = some g ∧ g.childNodes[ci]? = some c ∧ c.nodeData = p := by
  have extract : ∀ k j, findNodeIdx p (childNodesAt s k) = some j → gi = k → ci = j →
      ∃ g c, s.nodes[gi]? = some g ∧ g.childNodes[ci]? = some c ∧ c.nodeData = p := by
    intro k j hf hk hj
    subst hk
    subst hj
    obtain ⟨c, hc, hcp⟩ := findNodeIdx_spec p _ _ hf
    obtain ⟨g, hg, hgc⟩ := childNodesAt_elem s gi ci c hc
    exact ⟨g, c, hg, hgc, hcp⟩
  simp only [getNodePos] at h
  cases h0 : findNodeIdx p (childNodesAt s 0) with
  | some j =>
    rw [h0] at h
    simp at h
    exact extract 0 j h0 (by omega) (by omega)
  | none =>
    rw [h0] at h
    cases h1 : findNodeIdx p (childNodesAt s 1) with
    | some j =>
      rw [h1] at h
      simp at h
      exact extract 1 j h1 (by omega) (by omega)
    | none =>
      rw [h1] at h
      cases hfl : s.showDistributions with
      | true =>
        rw [hfl] at h
        simp at h
        obtain ⟨hj, hgi⟩ := h
        exact extract 2 ci hj (by omega) rfl
      | false =>
        rw [hfl] at h
        simp at h

theorem option_isSome_of_ne_none {α : Type} {o : Option α} (h : o ≠ none) :
    o.isSome = true := by
  cases o with
  | none => exact absurd rfl h
  | some a => rfl

theorem getNodeFromPath_isSome (s : PanelState) (p : String) :
    (getNodeFromPath s p).isSome = (getNodePos s p).isSome := by
  simp only [getNodeFromPath, getNodePos]
  cases hf0 : findNode p (childNodesAt s 0) with
  | some n =>
    have hi0 : (findNodeIdx p (childNodesAt s 0)).isSome = true := by
      refine option_isSome_of_ne_none ?_
      rw [Ne, findNodeIdx_none_iff, hf0]
      simp
    cases h0 : findNodeIdx p (childNodesAt s 0) with
    | none => rw [h0] at hi0; simp at hi0
    | some j => simp
  | none =>
    have hi0 : findNodeIdx p (childNodesAt s 0) = none :=
      (findNodeIdx_none_iff p (childNodesAt s 0)).mpr hf0
    rw [hi0]
    cases hf1 : findNode p (childNodesAt s 1) with
    | some n =>
      have hi1 : (findNodeIdx p (childNodesAt s 1)).isSome = true := by
        refine option_isSome_of_ne_none ?_
        rw [Ne, findNodeIdx_none_iff, hf1]
        simp
      cases h1 : findNodeIdx p (childNodesAt s 1) with
      | none => rw [h1] at hi1; simp at hi1
      | some j => simp
    | none =>
      have hi1 : findNodeIdx p (childNodesAt s 1) = none :=
        (findNodeIdx_none_iff p (childNodesAt s 1)).mpr hf1
      rw [hi1]
      cases hfl : s.showDistributions with
      | false => simp
      | true =>
        simp only [Option.isSome_none, Bool.false_or, Bool.not_true, Bool.or_false]
        cases hf2 : findNode p (childNodesAt s 2) with
        | some n =>
          have hi2 : (findNodeIdx p (childNodesAt s 2)).isSome = true := by
            refine option_isSome_of_ne_none ?_
            rw [Ne, findNodeIdx_none_iff, hf2]
            simp
          cases h2 : findNodeIdx p (childNodesAt s 2) with
          | none => rw [h2] at hi2; simp at hi2
          | some j => simp
        | none =>
          have hi2 : findNodeIdx p (childNodesAt s 2) = none :=
            (findNodeIdx_none_iff p (childNodesAt s 2)).mpr hf2
          rw [hi2]
          simp

/-- C5: for every path `p`, the selection update clears every selection flag
and then marks the node the path search finds: the result has at most one
selected node, a no-match leaves no node selected (without error), a match
leaves exactly one, every selected node's associated path equals `p`, and the
operation is idempotent. -/
theorem applySelection_correct (s : PanelState) (p : String) :
    selectedCount (setActiveNode p s) ≤ 1
    ∧ (getNodeFromPath s p = none → selectedCount (setActiveNode p s) = 0)
    ∧ ((getNodeFromPath s p).isSome → selectedCount (setActiveNode p s) = 1)
    ∧ (∀ g ∈ (setActiveNode p s).nodes, ∀ c ∈ g.childNodes,
        c.isSelected = true → c.nodeData = p)
    ∧ setActiveNode p (setActiveNode p s) = setActiveNode p s := by
  have hsp : (getNodeFromPath s p).isSome = (getNodePos s p).isSome :=
    getNodeFromPath_isSome s p
  cases hcase : getNodePos s p with
  | none =>
    have hm : getNodePos { s with nodes := clearSelection s.nodes } p = none := by
      rw [getNodePos_clear]; exact hcase
    have hset : setActiveNode p s = { s with nodes := clearSelection s.nodes } := by
      rw [setActiveNode_eq_applyCleared]
      unfold applyCleared
      rw [hm]
    have hz : selectedCount (setActiveNode p s) = 0 := by
      rw [hset, selectedCount_eq_countNodes]
      exact countNodes_clear s.nodes
    refine ⟨by omega, fun _ => hz, ?_, ?_, setActiveNode_idem p s⟩
    · intro habs
      rw [hsp, hcase] at habs
      simp at habs
    · intro g hg c hc hcs
      rw [hset] at hg
      exact absurd hcs (by rw [clearSelection_not_selected s.nodes g hg c hc]; simp)
  | some pos =>
    obtain ⟨gi, ci⟩ := pos
    have hm : getNodePos { s with nodes := clearSelection s.nodes } p = some (gi, ci) := by
      rw [getNodePos_clear]; exact hcase
    have hset : setActiveNode p s
        = { s with nodes := markAt (clearSelection s.nodes) gi ci } := by
      rw [setActiveNode_eq_applyCleared]
      unfold applyCleared
      rw [hm]
    obtain ⟨g, c, hg, hc, hcp⟩ := getNodePos_spec _ p gi ci hm
    simp only at hg hc
    have hone : selectedCount (setActiveNode p s) = 1 := by
      rw [hset, selectedCount_eq_countNodes]
      exact countNodes_markAt _ gi ci g c hg hc (countNodes_clear s.nodes)
    refine ⟨by omega, ?_, fun _ => hone, ?_, setActiveNode_idem p s⟩
    · intro habs
      have : (getNodeFromPath s p).isSome = true := by rw [hsp, hcase]; rfl
      rw [habs] at this
      simp at this
    · intro g1 hg1 c1 hc1 hcs
      rw [hset] at hg1
      simp only at hg1
      unfold markAt updateGroup at hg1
      rw [hg] at hg1
      simp only [hc] at hg1
      rcases list_mem_set hg1 with hg1 | hg1
      · subst hg1
        simp only at hc1
        rcases list_mem_set hc1 with hc1 | hc1
        · subst hc1
          simpa [markNode] using hcp
        · have := clearSelection_not_selected s.nodes g
            (List.getElem?_mem hg) c1 hc1
          rw [this] at hcs
          simp at hcs
      · have := clearSelection_not_selected s.nodes g1 hg1 c1 hc1
        rw [this] at hcs
        simp at hcs

theorem applySelection_correct_witness :
    (getNodeFromPath (buildNodes envC favC s3) "/data").isSome
    ∧ selectedCount (setActiveNode "/data" (buildNodes envC favC s3)) = 1 :=
  ⟨by decide, (applySelection_correct (buildNodes envC favC s3) "/data").2.2.1 (by decide)⟩

/-! ## Confirmation queue lemmas -/

/-- Calls arriving while a prompt is in flight only queue up, in arrival
order. -/
theorem foldl_showAlert_occupied (l : List Nat) (c : Nat) (o : Bool)
    (w : List Nat) (tr : List ATrace) :
    l.foldl showAlert ⟨some c, o, w, tr⟩ = ⟨some c, o, w ++ l, tr⟩ := by
  induction l generalizing w with
  | nil => simp
  | cons i is ih =>
    rw [List.foldl_cons]
    show is.foldl showAlert ⟨some c, o, w ++ [i], tr⟩ = _
    rw [ih]
    simp

/-- Same statement at the event level. -/
theorem foldl_calls_occupied (l : List Nat) (c : Nat) (o : Bool)
    (w : List Nat) (tr : List ATrace) :
    (l.map AEvent.call).foldl stepEvent ⟨some c, o, w, tr⟩ = ⟨some c, o, w ++ l, tr⟩ := by
  induction l generalizing w with
  | nil => simp
  | cons i is ih =>
    rw [List.map_cons, List.foldl_cons]
    show (is.map AEvent.call).foldl stepEvent ⟨some c, o, w ++ [i], tr⟩ = _
    rw [ih]
    simp

/-- Draining the queue: with one prompt in flight and `pend` queued callers,
`pend.length + 1` user dismissals resolve the in-flight prompt and then
serve every queued caller, one prompt at a time, in queue order. -/
theorem closes_drain (pend : List Nat) (c : Nat) (o : Bool) (tr : List ATrace) :
    (List.replicate (pend.length + 1) AEvent.close).foldl stepEvent ⟨some c, o, pend, tr⟩
      = ⟨none, false, [], tr ++ ATrace.resolved c :: serializedTrace pend⟩ := by
  induction pend generalizing c o tr with
  | nil =>
    simp [List.replicate, stepEvent, closeAlert, serializedTrace]
  | cons b rest ih =>
    rw [show (b :: rest).length + 1 = (rest.length + 1) + 1 by simp,
      List.replicate_succ, List.foldl_cons]
    have h1 : stepEvent ⟨some c, o, b :: rest, tr⟩ AEvent.close
        = ⟨some b, true, rest, (tr ++ [ATrace.resolved c]) ++ [ATrace.opened b]⟩ := by
      show (b :: rest).foldl showAlert ⟨none, false, [], tr ++ [ATrace.resolved c]⟩ = _
      rw [List.foldl_cons]
      show rest.foldl showAlert
        ⟨some b, true, [], (tr ++ [ATrace.resolved c]) ++ [ATrace.opened b]⟩ = _
      rw [foldl_showAlert_occupied]
      simp
    rw [h1, ih]
    simp [serializedTrace]

theorem opened_mem_serializedTrace (is : List Nat) (i : Nat) (h : i ∈ is) :
    ATrace.opened i ∈ serializedTrace is := by
  induction is with
  | nil => simp at h
  | cons a rest ih =>
    rcases List.mem_cons.mp h with h | h
    · simp [serializedTrace, h]
    · simp [serializedTrace, ih h]

/-- C2: for any set of concurrent calls to the queue (submitted in order
`is`, each dismissed by the user), the run ends with an empty queue and the
fully serialized trace — call `i`'s prompt opens, then its promise resolves,
strictly before the next call's prompt opens, in submission order; every
call's prompt does open (no request dropped) and at most one prompt is open
at any instant of the trace. -/
theorem alerter_serializes (is : List Nat) :
    runEvents (is.map AEvent.call ++ List.replicate is.length AEvent.close)
      = ⟨none, false, [], serializedTrace is⟩
    ∧ (∀ i ∈ is, ATrace.opened i ∈ serializedTrace is)
    ∧ openDepthOk 0 (serializedTrace is) = true := by
  refine ⟨?_, fun i h => opened_mem_serializedTrace is i h, ?_⟩
  · cases is with
    | nil => rfl
    | cons a rest =>
      unfold runEvents
      rw [List.map_cons, List.cons_append, List.foldl_cons]
      show ((rest.map AEvent.call) ++ _).foldl stepEvent ⟨some a, true, [], [ATrace.opened a]⟩ = _
      rw [List.foldl_append, foldl_calls_occupied]
      show (List.replicate (rest.length + 1) AEvent.close).foldl stepEvent
        ⟨some a, true, [] ++ rest, [ATrace.opened a]⟩ = _
      rw [List.nil_append, closes_drain]
      simp [serializedTrace]
  · induction is with
    | nil => rfl
    | cons a rest ih => simpa [serializedTrace, openDepthOk] using ih

theorem alerter_serializes_witness :
    runEvents (([0, 1, 2] : List Nat).map AEvent.call
        ++ List.replicate ([0, 1, 2] : List Nat).length AEvent.close)
      = ⟨none, false, [], serializedTrace [0, 1, 2]⟩
    ∧ (∀ i ∈ ([0, 1, 2] : List Nat), ATrace.opened i ∈ serializedTrace [0, 1, 2])
    ∧ openDepthOk 0 (serializedTrace [0, 1, 2]) = true :=
  alerter_serializes [0, 1, 2]

theorem node_identity_witness :
    (shortcutNode envC ⟨"A", "/x", none⟩).id = "s_" ++ "/x"
    ∧ (placeNode ⟨"A", "/x", none⟩).id = "p_" ++ "/x"
    ∧ (distribNode ⟨"A", "/x", none⟩).id = "p_" ++ "/x"
    ∧ (shortcutNode envC ⟨"A", "/x", none⟩).id = (shortcutNode envC ⟨"B", "/x", none⟩).id
    ∧ (placeNode ⟨"A", "/x", none⟩).id = (placeNode ⟨"B", "/x", none⟩).id
    ∧ (distribNode ⟨"A", "/x", none⟩).id = (distribNode ⟨"B", "/x", none⟩).id
    ∧ (shortcutNode envC ⟨"A", "/x", none⟩).id ≠ (placeNode ⟨"B", "/y", none⟩).id
    ∧ (shortcutNode envC ⟨"A", "/x", none⟩).id ≠ (distribNode ⟨"B", "/y", none⟩).id
    ∧ ((placeNode ⟨"A", "/x", none⟩).id = (distribNode ⟨"B", "/y", none⟩).id ↔ "/x" = "/y") :=
  node_identity envC envC "A" "B" "/x" "/y" none none

end ReactExplorer
